import Mathlib

/-!
Shallow embedding of the properties library (src/inc/event.hpp and
src/inc/property.hpp).

A C++ callback is a closure: it may mutate captured state, and, when the
event payload type is a mutable reference T&, it may also mutate the
referent.  We model the captured state by an explicit world type σ that
every callback reads and returns, and the by-reference payload by
threading the payload value α through the callbacks in order, exactly as
the range-for loop in event<Out>::trigger passes the single lvalue val
to each listener in turn.

The member T& ref of the Reference-mode property aliases caller-owned
storage; in the model the field ref holds the current value of that
external referent, so a write to the field is precisely a write through
the alias to the caller-owned variable, and get() reads the same cell.
-/

namespace Properties

/-- Model of event<Out>::Callable for Out = T& (std::function<void(T&)>):
a callback maps the captured world and the by-reference payload to their
updated values. -/
abbrev Cb (σ α : Type) : Type := σ → α → σ × α

/-- Model of event<Out> for Out = T&: the ordered listener list
(std::vector<Callable> listeners). -/
structure Event (σ α : Type) where
  listeners : List (Cb σ α)

/-- Loop of event<Out>::trigger:
for (auto &listener : listeners) listener(val);
Each listener runs in registration order on the current world and the
current by-reference payload. -/
def triggerList {σ α : Type} : List (Cb σ α) → σ → α → σ × α
  | [], s, a => (s, a)
  | l :: ls, s, a => triggerList ls (l s a).1 (l s a).2

/-- Model of event<Out>::trigger(Out val) for a reference payload Out = T&. -/
def Event.trigger {σ α : Type} (e : Event σ α) (s : σ) (a : α) : σ × α :=
  triggerList e.listeners s a

/-- Model of event<Out>::operator+(Call &other):
listeners.emplace_back(std::move(other)) appends at the back. -/
def Event.add {σ α : Type} (e : Event σ α) (c : Cb σ α) : Event σ α :=
  ⟨e.listeners ++ [c]⟩

/-- Model of the primary template property<T, copy = false> (Reference
mode).  The C++ member T& ref aliases caller-owned storage: the field
ref holds the current value of the external referent, and the field
with name starting in an underscore holds the private event member. -/
structure PropertyRef (σ α : Type) where
  ref : α
  ev : Event σ α

/-- Model of const T& get() const (and of the read through T& get()):
returns the stored reference, here its current value. -/
def PropertyRef.get {σ α : Type} (p : PropertyRef σ α) : α := p.ref

/-- Model of property<T, false>::set(const T& value):
ref = value; then the private event triggers with the stored slot passed
by mutable reference, so listeners see the committed value and may
rewrite the slot. -/
def PropertyRef.set {σ α : Type} (p : PropertyRef σ α) (s : σ) (v : α) :
    PropertyRef σ α × σ :=
  let sa := p.ev.trigger s v
  ({ p with ref := sa.2 }, sa.1)

/-- Model of property<T, false>::set(const property<T, false>& value):
ref = value.get(); then the event triggers with the stored slot. -/
def PropertyRef.setFromRef {σ α : Type} (p : PropertyRef σ α) (s : σ)
    (other : PropertyRef σ α) : PropertyRef σ α × σ :=
  let sa := p.ev.trigger s other.get
  ({ p with ref := sa.2 }, sa.1)

/-- Model of property<T, false>::operator=(const property<T, _copy>& other)
instantiated at _copy = false (the source wrapper is also Reference
mode).  The parameter sameObject models the pointer identity test on
this and the address of other, so a call with sameObject = true is only
meaningful when other is the wrapper itself.  Source body:
if constexpr (not _copy) if (this != other address) return this;
ref = other converted to const T&; event triggers.
Note that the guard returns early exactly when the two wrappers are
distinct objects. -/
def PropertyRef.assignFromRef {σ α : Type} (p : PropertyRef σ α) (s : σ)
    (other : PropertyRef σ α) (sameObject : Bool) : PropertyRef σ α × σ :=
  if !sameObject then (p, s)
  else
    let sa := p.ev.trigger s other.ref
    ({ p with ref := sa.2 }, sa.1)

/-- Model of T operator=(T val) on the Reference mode:
ref = val; event triggers; return ref (the final slot value). -/
def PropertyRef.assignVal {σ α : Type} (p : PropertyRef σ α) (s : σ) (v : α) :
    (PropertyRef σ α × σ) × α :=
  let sa := p.ev.trigger s v
  (({ p with ref := sa.2 }, sa.1), sa.2)

/-- Model of property<T, false>::operator+(Callable callback):
forwards to the private event member, which appends at the back. -/
def PropertyRef.addCallback {σ α : Type} (p : PropertyRef σ α) (c : Cb σ α) :
    PropertyRef σ α :=
  { p with ev := p.ev.add c }

/-- Caller-side mutation through the mutable alias returned by T& get()
(or by operator T&()): a plain store into the aliased slot.  The
accessor body is return ref, so no event machinery is involved. -/
def PropertyRef.writeThroughGet {σ α : Type} (p : PropertyRef σ α) (v : α) :
    PropertyRef σ α :=
  { p with ref := v }

/-- Model of the specialization property<T, true> (Owned mode).  The
constructor property(T val) copies the argument, so the field val is the
exclusively owned copy. -/
structure PropertyOwned (σ α : Type) where
  val : α
  ev : Event σ α

/-- Model of const T& get() const on the Owned mode. -/
def PropertyOwned.get {σ α : Type} (p : PropertyOwned σ α) : α := p.val

/-- Model of property<T, true>::set(const T& value):
val = value; then the event triggers with the stored slot. -/
def PropertyOwned.set {σ α : Type} (p : PropertyOwned σ α) (s : σ) (v : α) :
    PropertyOwned σ α × σ :=
  let sa := p.ev.trigger s v
  ({ p with val := sa.2 }, sa.1)

/-- Model of property<T, true>::operator=(const property<T, _copy>& other)
at _copy = true (the only instantiation that compiles, since the body
reads the val member of other).  Here the identity guard is the usual
one: if (this == other address) return this. -/
def PropertyOwned.assignFromOwned {σ α : Type} (p : PropertyOwned σ α) (s : σ)
    (other : PropertyOwned σ α) (sameObject : Bool) : PropertyOwned σ α × σ :=
  if sameObject then (p, s)
  else
    let sa := p.ev.trigger s other.val
    ({ p with val := sa.2 }, sa.1)

/-- Model of T& operator=(T other) on the Owned mode:
val = other; event triggers; return val. -/
def PropertyOwned.assignVal {σ α : Type} (p : PropertyOwned σ α) (s : σ) (v : α) :
    (PropertyOwned σ α × σ) × α :=
  let sa := p.ev.trigger s v
  (({ p with val := sa.2 }, sa.1), sa.2)

/-- Model of property<T, true>::operator+(Callable callback). -/
def PropertyOwned.addCallback {σ α : Type} (p : PropertyOwned σ α) (c : Cb σ α) :
    PropertyOwned σ α :=
  { p with ev := p.ev.add c }

/-- Caller-side mutation through the mutable T& get() of the Owned mode. -/
def PropertyOwned.writeThroughGet {σ α : Type} (p : PropertyOwned σ α) (v : α) :
    PropertyOwned σ α :=
  { p with val := v }

/-! Fallible re-embedding of the same trigger loop, with the host
exception made explicit: a callback either completes with a new world
and payload, or raises an error of type ε. -/

/-- Fallible callback: the same std::function<void(T&)> but with a
possible host exception of type ε. -/
abbrev CbE (σ α ε : Type) : Type := σ → α → Except ε (σ × α)

/-- Lift of an infallible callback into the fallible model. -/
def liftCb {σ α ε : Type} (c : Cb σ α) : CbE σ α ε :=
  fun s a => Except.ok (c s a)

/-- event<Out>::trigger under exceptions: the range-for runs listeners
in order until one raises; the raised error then propagates out of the
loop, together with the world and payload as already mutated, since
stack unwinding rolls back no side effect. -/
def triggerListE {σ α ε : Type} : List (CbE σ α ε) → σ → α → (σ × α) × Option ε
  | [], s, a => ((s, a), none)
  | l :: ls, s, a =>
    match l s a with
    | Except.ok sa => triggerListE ls sa.1 sa.2
    | Except.error e => ((s, a), some e)

/-- Reference-mode property in the fallible model. -/
structure PropertyRefE (σ α ε : Type) where
  ref : α
  listeners : List (CbE σ α ε)

/-- property<T, false>::set under exceptions: ref = value happens before
the trigger loop, and the slot is external storage, so the committed
value (as further mutated by the listeners already run) survives the
propagating error. -/
def PropertyRefE.set {σ α ε : Type} (p : PropertyRefE σ α ε) (s : σ) (v : α) :
    (PropertyRefE σ α ε × σ) × Option ε :=
  let r := triggerListE p.listeners s v
  (({ p with ref := r.1.2 }, r.1.1), r.2)

/-! Instrumentation callbacks used to observe firings in theorems. -/

/-- Logging callback: appends its own id together with the payload value
it observes, and leaves the payload unchanged. -/
def logCb {α : Type} (i : Nat) : Cb (List (Nat × α)) α :=
  fun s a => (s ++ [(i, a)], a)

/-- Counting callback: increments a counter and leaves the payload
unchanged. -/
def cntCb {α : Type} : Cb Nat α :=
  fun s a => (s + 1, a)

/-- Counting callback over a world that also carries the original
external variable the Owned wrapper was constructed from: it increments
the counter and touches nothing else. -/
def cntVarCb {α : Type} : Cb (Nat × Int) α :=
  fun s a => ((s.1 + 1, s.2), a)

/-! Helper lemmas about the trigger loop. -/

lemma triggerList_map_logCb {α : Type} (ids : List Nat) (s : List (Nat × α)) (v : α) :
    triggerList (ids.map logCb) s v = (s ++ ids.map fun i => (i, v), v) := by
  induction ids generalizing s with
  | nil => simp [triggerList]
  | cons i is ih => simp [triggerList, logCb, ih]

lemma triggerList_payload_eq {σ α : Type} (ls : List (Cb σ α)) :
    (∀ c ∈ ls, ∀ t a, (c t a).2 = a) → ∀ s a, (triggerList ls s a).2 = a := by
  induction ls with
  | nil => intro _ s a; rfl
  | cons c cs ih =>
    intro h s a
    have hc := h c (List.mem_cons_self c cs)
    have hcs := fun d hd => h d (List.mem_cons_of_mem c hd)
    simp only [triggerList]
    rw [ih hcs]
    exact hc s a

lemma triggerList_append_single {σ α : Type} (ls : List (Cb σ α)) (c : Cb σ α)
    (s : σ) (a : α) :
    triggerList (ls ++ [c]) s a
      = c (triggerList ls s a).1 (triggerList ls s a).2 := by
  induction ls generalizing s a with
  | nil => rfl
  | cons d ds ih => simp [triggerList, ih]

lemma triggerListE_lift_append {σ α ε : Type} (gs : List (Cb σ α))
    (cs : List (CbE σ α ε)) (s : σ) (a : α) :
    triggerListE (gs.map liftCb ++ cs) s a
      = triggerListE cs (triggerList gs s a).1 (triggerList gs s a).2 := by
  induction gs generalizing s a with
  | nil => simp [triggerList]
  | cons g gs ih => simp [triggerList, triggerListE, liftCb, ih]

lemma foldl_writeThroughGet_ev {σ α : Type} (vs : List α) (p : PropertyRef σ α) :
    (vs.foldl PropertyRef.writeThroughGet p).ev = p.ev := by
  induction vs generalizing p with
  | nil => rfl
  | cons v vs ih => simpa [PropertyRef.writeThroughGet] using ih { p with ref := v }

lemma foldl_writeThroughGet_ref {σ α : Type} (vs : List α) (p : PropertyRef σ α) :
    (vs.foldl PropertyRef.writeThroughGet p).ref = vs.getLastD p.ref := by
  induction vs generalizing p with
  | nil => rfl
  | cons v vs ih =>
    rw [List.foldl_cons, List.getLastD_cons]
    exact ih { p with ref := v }

lemma foldl_writeThroughGetOwned_ev {σ α : Type} (vs : List α) (p : PropertyOwned σ α) :
    (vs.foldl PropertyOwned.writeThroughGet p).ev = p.ev := by
  induction vs generalizing p with
  | nil => rfl
  | cons v vs ih => simpa [PropertyOwned.writeThroughGet] using ih { p with val := v }

lemma foldl_writeThroughGetOwned_val {σ α : Type} (vs : List α) (p : PropertyOwned σ α) :
    (vs.foldl PropertyOwned.writeThroughGet p).val = vs.getLastD p.val := by
  induction vs generalizing p with
  | nil => rfl
  | cons v vs ih =>
    rw [List.foldl_cons, List.getLastD_cons]
    exact ih { p with val := v }

/-! Claim theorems. -/

/-- C1: evaluation of the code at the failing input.  Copy-assignment of
a Reference-mode wrapper from a DISTINCT Reference-mode wrapper takes
the early-return branch of the inverted identity guard: the stored value
stays 1 (not the source value 2) and the registered counting callback
never fires (the counter stays 0), contradicting the claim that every
assignment triggers each registered callback exactly once with the
post-mutation value. -/
theorem assign_ref_from_distinct_ref_is_silent_noop :
    ((PropertyRef.assignFromRef ⟨(1 : Int), ⟨[cntCb]⟩⟩ (0 : Nat) ⟨2, ⟨[]⟩⟩ false).1.ref = 1)
    ∧ ((PropertyRef.assignFromRef (⟨1, ⟨[cntCb]⟩⟩ : PropertyRef Nat Int) 0 ⟨2, ⟨[]⟩⟩ false).2 = 0) :=
  ⟨rfl, rfl⟩

/-- C2: evaluation of the code at the failing input.  Self-assignment of
a Reference-mode wrapper (sameObject = true, the other wrapper being the
wrapper itself) falls through the inverted guard: the value is rewritten
in place (still 5) and the counting callback fires once (the counter
ends at 1, not 0 as the claim requires). -/
theorem self_assign_ref_fires_once :
    ((PropertyRef.assignFromRef ⟨(5 : Int), ⟨[cntCb]⟩⟩ (0 : Nat) ⟨5, ⟨[cntCb]⟩⟩ true).1.ref = 5)
    ∧ ((PropertyRef.assignFromRef (⟨5, ⟨[cntCb]⟩⟩ : PropertyRef Nat Int) 0 ⟨5, ⟨[cntCb]⟩⟩ true).2 = 1) :=
  ⟨rfl, rfl⟩

/-- C3: trigger invokes exactly the registered callbacks, each exactly
once, in registration order (operator+ appends at the back and the loop
runs front to back): firing n logging callbacks from an empty log
produces exactly the log (0, v), ..., (n-1, v); and firing with zero
registered callbacks invokes nothing. -/
theorem trigger_in_registration_order {α : Type} (n : Nat) (v : α)
    (s : List (Nat × α)) (a : α) :
    (Event.trigger ⟨(List.range n).map logCb⟩ ([] : List (Nat × α)) v
        = ((List.range n).map fun i => (i, v), v))
    ∧ (Event.trigger (⟨[]⟩ : Event (List (Nat × α)) α) s a = (s, a)) := by
  refine ⟨?_, rfl⟩
  simp [Event.trigger, triggerList_map_logCb]

/-- C4: with a mutable-reference payload, an in-place mutation by an
earlier callback is observed by every later callback of the same firing:
generally, a callback that overwrites the payload with w makes the next
callback observe w whatever value was fired; and in the concrete
three-callback scenario over an int initially 8 the log of observed
values is 8, 19, 18 and the externally held variable ends at 18. -/
theorem later_callbacks_observe_earlier_mutation :
    (∀ (v w : Int) (s : List Int),
        Event.trigger ⟨[fun t _ => (t, w), fun t b => (t ++ [b], b)]⟩ s v
          = (s ++ [w], w))
    ∧ (Event.trigger
          ⟨[fun t b => (t ++ [b], (19 : Int)),
            fun t b => (t ++ [b], 18),
            fun t b => (t ++ [b], b)]⟩ ([] : List Int) 8
        = ([8, 19, 18], 18)) := by
  constructor
  · intro v w s; rfl
  · rfl

/-- C5: on a Reference-mode wrapper whose registered callbacks leave the
payload unchanged, set(v) stores v: get() returns v and the ref field —
the externally owned referent the wrapper aliases — holds v. -/
theorem ref_set_writes_through_to_referent {σ α : Type} (p : PropertyRef σ α)
    (s : σ) (v : α)
    (h : ∀ c ∈ p.ev.listeners, ∀ t a, (c t a).2 = a) :
    (p.set s v).1.get = v ∧ (p.set s v).1.ref = v := by
  have hv := triggerList_payload_eq p.ev.listeners h s v
  exact ⟨hv, hv⟩

/-- Witness for C5 at a concrete input. -/
theorem ref_set_writes_through_to_referent_witness :
    ((PropertyRef.set ⟨(12 : Int), ⟨[cntCb]⟩⟩ (0 : Nat) 9).1.get = 9)
    ∧ ((PropertyRef.set (⟨12, ⟨[cntCb]⟩⟩ : PropertyRef Nat Int) 0 9).1.ref = 9) :=
  ref_set_writes_through_to_referent ⟨12, ⟨[cntCb]⟩⟩ 0 9 (by
    intro c hc t a
    rw [List.mem_singleton] at hc
    subst hc
    rfl)

/-- C6: an Owned-mode set(v) updates the owned copy that get() returns,
for any wrapper whose callbacks leave the payload unchanged; and in the
concrete scenario — wrapper constructed by copying the external variable
12, one counting callback, world carrying (counter, external variable) —
set 234 yields get() = 234 with the world ending at (1, 12): the
callback fired exactly once and the original external variable still
holds 12. -/
theorem owned_set_updates_only_the_owned_copy :
    (∀ (σ α : Type) (p : PropertyOwned σ α) (s : σ) (v : α),
        (∀ c ∈ p.ev.listeners, ∀ t a, (c t a).2 = a) → (p.set s v).1.get = v)
    ∧ (((PropertyOwned.set (⟨12, ⟨[cntVarCb]⟩⟩ : PropertyOwned (Nat × Int) Int) (0, 12) 234).1.get = 234)
        ∧ ((PropertyOwned.set (⟨12, ⟨[cntVarCb]⟩⟩ : PropertyOwned (Nat × Int) Int) (0, 12) 234).2 = (1, 12))) := by
  refine ⟨?_, rfl, rfl⟩
  intro σ α p s v h
  exact triggerList_payload_eq p.ev.listeners h s v

/-- Witness for C6: the universal part instantiated at a concrete
wrapper. -/
theorem owned_set_updates_only_the_owned_copy_witness :
    (PropertyOwned.set (⟨3, ⟨[cntCb]⟩⟩ : PropertyOwned Nat Int) 0 7).1.get = 7 :=
  owned_set_updates_only_the_owned_copy.1 Nat Int ⟨3, ⟨[cntCb]⟩⟩ 0 7 (by
    intro c hc t a
    rw [List.mem_singleton] at hc
    subst hc
    rfl)

/-- Reference wrapper used in the C7 contrast run: value 0, one counting
callback. -/
def mixedRunStart : PropertyRef Nat Int := ⟨0, ⟨[cntCb]⟩⟩

/-- Contrast run for C7: set (fires), two direct writes through get()
(which must not fire), then set again (fires).  Records the values read
back after each direct write, the final value, and the final counter. -/
def mixedRun : Int × Int × Int × Nat :=
  let r1 := mixedRunStart.set 0 5
  let p2 := r1.1.writeThroughGet 7
  let p3 := p2.writeThroughGet 9
  let r2 := p3.set r1.2 11
  (p2.get, p3.get, r2.1.get, r2.2)

/-- C7: direct mutation through the mutable get() accessor bypasses the
event in either mode: any sequence of direct writes leaves the event —
hence every registered callback — untouched, while the last written
value is visible to subsequent reads; and in the mixed run the counter
ends at 2 (only the two set calls fired: zero firings for the direct
writes) while the directly written values are read back. -/
theorem direct_get_mutation_bypasses_callbacks {σ α : Type}
    (p : PropertyRef σ α) (q : PropertyOwned σ α) (vs : List α) :
    ((vs.foldl PropertyRef.writeThroughGet p).ev = p.ev
      ∧ (vs.foldl PropertyRef.writeThroughGet p).ref = vs.getLastD p.ref)
    ∧ ((vs.foldl PropertyOwned.writeThroughGet q).ev = q.ev
      ∧ (vs.foldl PropertyOwned.writeThroughGet q).val = vs.getLastD q.val)
    ∧ mixedRun = (7, 9, 11, 2) :=
  ⟨⟨foldl_writeThroughGet_ev vs p, foldl_writeThroughGet_ref vs p⟩,
   ⟨foldl_writeThroughGetOwned_ev vs q, foldl_writeThroughGetOwned_val vs q⟩,
   rfl⟩

/-- C8: when the listener list is a block of good callbacks
(payload-preserving, never raising), then a callback that always raises
e, then arbitrary further callbacks, set(v) propagates the error to the
caller, the world reflects only the callbacks before the failing one —
those after it never run, the result not depending on them — and the
stored value is still the committed v. -/
theorem failing_callback_aborts_rest_keeps_value {σ α ε : Type}
    (gs : List (Cb σ α)) (e : ε) (rest : List (CbE σ α ε))
    (r0 : α) (s : σ) (v : α)
    (h : ∀ c ∈ gs, ∀ t a, (c t a).2 = a) :
    ((PropertyRefE.set (⟨r0, gs.map liftCb ++ (fun _ _ => Except.error e) :: rest⟩ : PropertyRefE σ α ε) s v).2 = some e)
    ∧ ((PropertyRefE.set (⟨r0, gs.map liftCb ++ (fun _ _ => Except.error e) :: rest⟩ : PropertyRefE σ α ε) s v).1.1.ref = v)
    ∧ ((PropertyRefE.set (⟨r0, gs.map liftCb ++ (fun _ _ => Except.error e) :: rest⟩ : PropertyRefE σ α ε) s v).1.2 = (triggerList gs s v).1) := by
  have hlift := triggerListE_lift_append (ε := ε) gs ((fun _ _ => Except.error e) :: rest) s v
  have hA := triggerList_payload_eq gs h s v
  refine ⟨?_, ?_, ?_⟩ <;>
    simp [PropertyRefE.set, hlift, triggerListE, hA]

/-- Witness for C8 at a concrete input. -/
theorem failing_callback_aborts_rest_keeps_value_witness :
    ((PropertyRefE.set (⟨1, [cntCb].map liftCb ++ (fun _ _ => Except.error 7) :: [liftCb cntCb]⟩ : PropertyRefE Nat Int Nat) 0 5).2 = some 7)
    ∧ ((PropertyRefE.set (⟨1, [cntCb].map liftCb ++ (fun _ _ => Except.error 7) :: [liftCb cntCb]⟩ : PropertyRefE Nat Int Nat) 0 5).1.1.ref = 5)
    ∧ ((PropertyRefE.set (⟨1, [cntCb].map liftCb ++ (fun _ _ => Except.error 7) :: [liftCb cntCb]⟩ : PropertyRefE Nat Int Nat) 0 5).1.2 = (triggerList [cntCb] 0 5).1) :=
  failing_callback_aborts_rest_keeps_value [cntCb] 7 [liftCb cntCb] 1 0 5 (by
    intro c hc t a
    rw [List.mem_singleton] at hc
    subst hc
    rfl)

/-- C9: set performs no equality-based change detection: even when the
new value v equals the current stored value r0, set fires each
registered callback exactly once with v, in both modes — shown through
logging callbacks, whose log grows by exactly one entry per callback. -/
theorem set_equal_value_still_fires {α : Type} (n : Nat) (v r0 : α)
    (s : List (Nat × α)) (_h : v = r0) :
    (PropertyRef.set ⟨r0, ⟨(List.range n).map logCb⟩⟩ s v
        = (⟨v, ⟨(List.range n).map logCb⟩⟩, s ++ (List.range n).map fun i => (i, v)))
    ∧ (PropertyOwned.set ⟨r0, ⟨(List.range n).map logCb⟩⟩ s v
        = (⟨v, ⟨(List.range n).map logCb⟩⟩, s ++ (List.range n).map fun i => (i, v))) := by
  constructor <;>
    simp [PropertyRef.set, PropertyOwned.set, Event.trigger, triggerList_map_logCb]

/-- Witness for C9 at a concrete input where the new value equals the
stored value. -/
theorem set_equal_value_still_fires_witness :
    (PropertyRef.set ⟨(4 : Int), ⟨(List.range 2).map logCb⟩⟩ ([] : List (Nat × Int)) 4
        = (⟨4, ⟨(List.range 2).map logCb⟩⟩, [] ++ (List.range 2).map fun i => (i, (4 : Int))))
    ∧ (PropertyOwned.set ⟨(4 : Int), ⟨(List.range 2).map logCb⟩⟩ ([] : List (Nat × Int)) 4
        = (⟨4, ⟨(List.range 2).map logCb⟩⟩, [] ++ (List.range 2).map fun i => (i, (4 : Int)))) :=
  set_equal_value_still_fires 2 4 4 [] rfl

/-- C10: registering a callback fires nothing and only appends: the new
listener list is the old one with the callback at the back; triggering
the extended event equals triggering the old event and then running the
new callback last (so registration alone ran neither the new nor any old
callback); and on both wrapper modes operator+ leaves the stored value
and the previously registered listeners unchanged. -/
theorem registration_only_appends {σ α : Type} (e : Event σ α) (c : Cb σ α)
    (s : σ) (v : α) (p : PropertyRef σ α) (q : PropertyOwned σ α) :
    ((e.add c).listeners = e.listeners ++ [c])
    ∧ (Event.trigger (e.add c) s v
        = c (Event.trigger e s v).1 (Event.trigger e s v).2)
    ∧ ((p.addCallback c).ref = p.ref
        ∧ (p.addCallback c).ev.listeners = p.ev.listeners ++ [c])
    ∧ ((q.addCallback c).val = q.val
        ∧ (q.addCallback c).ev.listeners = q.ev.listeners ++ [c]) :=
  ⟨rfl, triggerList_append_single e.listeners c s v, ⟨rfl, rfl⟩, ⟨rfl, rfl⟩⟩

end Properties
